import Mathlib

/-!
Verification of the Active Graph KG core against its specification.

This file shallowly embeds the parts of the repository that the checked
properties concern:

* `activekg/triggers/trigger_engine.py` and `pattern_store.py`
  (similarity-pattern trigger engine);
* `activekg/connectors/encryption.py` (Fernet envelope encryption with
  KEK versioning);
* `activekg/connectors/webhooks.py` (S3/SNS webhook handler: size limit,
  replay dedup, topic allowlist);
* `activekg/api/rate_limiter.py` and `middleware.py` (fixed-window rate
  limiter with fail-open policy and response headers).

Python floats are modelled as exact rationals; the float square root in
the cosine similarity is modelled by `Rat.sqrt` (an exact computable
stand-in whose value is irrelevant to the checked properties, which only
use that the square root of zero is zero and of a positive number is
positive).  Redis, Postgres and the process environment are modelled as
explicit values threaded through the functions.  Prometheus counter
increments and log emissions are modelled as explicit event lists so that
claims about them are expressible.
-/

/-! ## Trigger engine (`activekg/triggers/trigger_engine.py`) -/

/-- Sum of squares of a vector, `(a**2).sum()` in the source. -/
def sumSq (v : List ℚ) : ℚ :=
  (v.map (fun x => x * x)).sum

/-- Dot product `a @ b` (the engine always compares same-length vectors;
`zip` truncates to the shorter one). -/
def dotProd (a b : List ℚ) : ℚ :=
  ((a.zip b).map (fun p => p.1 * p.2)).sum

/-- Embedding of `TriggerEngine._cos_sim`:
`denom = (a**2).sum()**0.5 * (b**2).sum()**0.5; 0.0 if denom == 0 else (a@b)/denom`.
The float square root is modelled by the exact `Rat.sqrt`. -/
def cos_sim (a b : List ℚ) : ℚ :=
  let denom := Rat.sqrt (sumSq a) * Rat.sqrt (sumSq b)
  if denom = 0 then 0 else dotProd a b / denom

/-- A trigger entry on a node: the Python dict with keys `name` and
`threshold`, each possibly absent (`trig.get`). -/
structure Trig where
  name : Option String
  threshold : Option ℚ
deriving DecidableEq

/-- A graph node, restricted to the fields the trigger engine reads. -/
structure Node where
  id : String
  tenant_id : Option String
  embedding : Option (List ℚ)
  triggers : Option (List Trig)
deriving DecidableEq

/-- Payload of a `trigger_fired` event. -/
structure TrigPayload where
  trigger : Option String
  similarity : ℚ
deriving DecidableEq

/-- An event appended by `repo.append_event`. -/
structure Event where
  node_id : String
  type : String
  payload : TrigPayload
  tenant_id : Option String
  actor_id : String
  actor_type : String
deriving DecidableEq

/-- The `patterns` table of `PatternStore`, keyed by pattern name. -/
abbrev PatternStore := List (String × List ℚ)

/-- Embedding of `PatternStore.get`: a lookup by name.  A `None` name
(`trig.get("name")` missing) matches no row, as `WHERE name = NULL`
selects nothing. -/
def PatternStore.get (ps : PatternStore) (name : Option String) : Option (List ℚ) :=
  match name with
  | none => none
  | some n => ps.lookup n

/-- The event built by the engine when a trigger fires. -/
def trigEvent (node : Node) (name : Option String) (sim : ℚ) : Event :=
  ⟨node.id, "trigger_fired", ⟨name, sim⟩, node.tenant_id, "trigger_engine", "trigger"⟩

/-- Inner loop of `TriggerEngine.run` / `run_for` over a node with
embedding `emb`: for each trigger entry, look up the pattern (skip when
missing), compare the cosine similarity with the threshold
(default `0.85`) and append one `trigger_fired` event on success. -/
def fireTriggers (ps : PatternStore) (node : Node) (emb : List ℚ) :
    List Trig → List Event
  | [] => []
  | trig :: rest =>
    match PatternStore.get ps trig.name with
    | none => fireTriggers ps node emb rest
    | some ref =>
      if cos_sim emb ref ≥ trig.threshold.getD (85/100) then
        trigEvent node trig.name (cos_sim emb ref) :: fireTriggers ps node emb rest
      else
        fireTriggers ps node emb rest

/-- Events appended for one node: nodes with a nil embedding are skipped
(`node.embedding is None: continue`), and `node.triggers or []` defaults
a nil trigger list to the empty list. -/
def fireForNode (ps : PatternStore) (node : Node) : List Event :=
  match node.embedding with
  | none => []
  | some emb => fireTriggers ps node emb (node.triggers.getD [])

/-- Embedding of `repo.get_node`: first node with the given id. -/
def getNode (repo : List Node) (nid : String) : Option Node :=
  repo.find? (fun n => n.id == nid)

/-- Embedding of `TriggerEngine.run_for(node_ids)`: the list of events
appended, in order.  Missing nodes and nodes with a nil embedding
contribute nothing (`if not node or node.embedding is None: continue`). -/
def runFor (ps : PatternStore) (repo : List Node) : List String → List Event
  | [] => []
  | nid :: rest =>
    (match getNode repo nid with
     | none => []
     | some node => fireForNode ps node) ++ runFor ps repo rest

/-- Embedding of `TriggerEngine.run()`: full scan over `repo.all_nodes()`. -/
def run (ps : PatternStore) : List Node → List Event
  | [] => []
  | node :: rest => fireForNode ps node ++ run ps rest

/-! ### Lemmas about the trigger engine -/

/-- The inner loop is the `filterMap` of the per-entry firing rule. -/
theorem fireTriggers_eq_filterMap (ps : PatternStore) (node : Node) (emb : List ℚ) :
    ∀ ts : List Trig,
      fireTriggers ps node emb ts = ts.filterMap (fun trig =>
        match PatternStore.get ps trig.name with
        | none => none
        | some ref =>
          if cos_sim emb ref ≥ trig.threshold.getD (85/100) then
            some (trigEvent node trig.name (cos_sim emb ref))
          else none) := by
  intro ts
  induction ts with
  | nil => rfl
  | cons trig rest ih =>
    cases h : PatternStore.get ps trig.name with
    | none => simp [fireTriggers, h, ih]
    | some ref =>
      by_cases hc : cos_sim emb ref ≥ trig.threshold.getD (85/100)
      · simp [fireTriggers, h, hc, ih, List.filterMap_cons]
      · simp [fireTriggers, h, hc, ih, List.filterMap_cons]

/-- Every event emitted by the inner loop is a `trigEvent` of the node. -/
theorem fireTriggers_mem (ps : PatternStore) (node : Node) (emb : List ℚ) :
    ∀ (ts : List Trig) (e : Event), e ∈ fireTriggers ps node emb ts →
      e.type = "trigger_fired" ∧ e.actor_type = "trigger" ∧
      e.actor_id = "trigger_engine" ∧ e.node_id = node.id := by
  intro ts e he
  rw [fireTriggers_eq_filterMap] at he
  rcases List.mem_filterMap.mp he with ⟨trig, -, hf⟩
  cases hps : PatternStore.get ps trig.name with
  | none => rw [hps] at hf; exact absurd hf (by simp)
  | some ref =>
    rw [hps] at hf
    dsimp only at hf
    by_cases hc : cos_sim emb ref ≥ trig.threshold.getD (85/100)
    · rw [if_pos hc] at hf
      have he2 := Option.some.inj hf
      subst he2
      exact ⟨rfl, rfl, rfl, rfl⟩
    · rw [if_neg hc] at hf; exact absurd hf (by simp)

/-- The per-entry firing rule of the engine: pattern lookup (missing
patterns skipped), threshold comparison (default `0.85`), one event on
success. -/
def fireRule (ps : PatternStore) (node : Node) (emb : List ℚ) (trig : Trig) : Option Event :=
  match PatternStore.get ps trig.name with
  | none => none
  | some ref =>
    if cos_sim emb ref ≥ trig.threshold.getD (85/100) then
      some (trigEvent node trig.name (cos_sim emb ref))
    else none

theorem fireForNode_eq_filterMap (ps : PatternStore) (node : Node) (emb : List ℚ)
    (h : node.embedding = some emb) :
    fireForNode ps node = (node.triggers.getD []).filterMap (fireRule ps node emb) := by
  simp only [fireForNode, h]
  exact fireTriggers_eq_filterMap ps node emb _

theorem runFor_eq_flatMap (ps : PatternStore) (repo : List Node) :
    ∀ ids : List String,
      runFor ps repo ids =
        ids.flatMap (fun nid => (getNode repo nid).elim [] (fireForNode ps)) := by
  intro ids
  induction ids with
  | nil => rfl
  | cons nid rest ih =>
    cases h : getNode repo nid with
    | none => simp [runFor, h, ih]
    | some node => simp [runFor, h, ih]

theorem run_eq_flatMap (ps : PatternStore) :
    ∀ repo : List Node, run ps repo = repo.flatMap (fireForNode ps) := by
  intro repo
  induction repo with
  | nil => rfl
  | cons node rest ih => simp [run, ih]

/-- C1: for every node processed by `run_for` (and `run`) with a non-nil
embedding, the events appended for that node are exactly one
`trigger_fired` event per trigger entry whose pattern is found and whose
cosine similarity reaches the threshold, carrying payload
`(trigger := name, similarity)` and `actor_type = "trigger"`; entries
with a missing pattern are skipped without error, entries below the
threshold append nothing, and a node with a nil embedding appends
nothing. -/
theorem trigger_engine_fires_iff_threshold (ps : PatternStore) (repo : List Node)
    (ids : List String) (node : Node) :
    (node.embedding = none → fireForNode ps node = [])
  ∧ (∀ emb, node.embedding = some emb →
      fireForNode ps node = (node.triggers.getD []).filterMap (fireRule ps node emb))
  ∧ (∀ e ∈ fireForNode ps node,
      e.type = "trigger_fired" ∧ e.actor_type = "trigger" ∧
      e.actor_id = "trigger_engine" ∧ e.node_id = node.id)
  ∧ runFor ps repo ids =
      ids.flatMap (fun nid => (getNode repo nid).elim [] (fireForNode ps))
  ∧ run ps repo = repo.flatMap (fireForNode ps) := by
  refine ⟨fun h => by simp [fireForNode, h], fireForNode_eq_filterMap ps node, ?_,
    runFor_eq_flatMap ps repo ids, run_eq_flatMap ps repo⟩
  intro e he
  cases h : node.embedding with
  | none => rw [fireForNode, h] at he; exact absurd he (by simp)
  | some emb =>
    rw [fireForNode, h] at he
    exact fireTriggers_mem ps node emb _ e he

/-- Concrete pattern store for the C1 witness. -/
def psW : PatternStore := [("alert", [1, 0])]

/-- Concrete node for the C1 witness: one firing entry, one entry with a
missing pattern, one entry below its threshold. -/
def nodeW : Node :=
  ⟨"n1", some "t1", some [1, 0],
   some [⟨some "alert", some (9/10)⟩, ⟨some "missing", none⟩, ⟨some "alert", some (101/100)⟩]⟩

theorem trigger_engine_fires_iff_threshold_witness :
    fireForNode psW nodeW =
      [⟨"n1", "trigger_fired", ⟨some "alert", 1⟩, some "t1", "trigger_engine", "trigger"⟩] := by
  have h := (trigger_engine_fires_iff_threshold psW [] [] nodeW).2.1 [1, 0] rfl
  have h1 : Rat.sqrt 1 = 1 := by decide
  have h2 : ("missing" == "alert") = false := by decide
  rw [h]
  norm_num [psW, nodeW, fireRule, PatternStore.get, trigEvent, cos_sim, sumSq, dotProd,
    List.lookup, List.filterMap_cons, List.filterMap_nil, Option.getD, h1, h2]

/-- The square root model sends zero to zero. -/
theorem ratSqrt_zero : Rat.sqrt 0 = 0 := by decide

theorem cos_sim_zero_of_left (a b : List ℚ) (h : sumSq a = 0) : cos_sim a b = 0 := by
  simp [cos_sim, h, ratSqrt_zero]

theorem cos_sim_zero_of_right (a b : List ℚ) (h : sumSq b = 0) : cos_sim a b = 0 := by
  simp [cos_sim, h, ratSqrt_zero]

/-- C10: `_cos_sim` is total and guards the division: whenever either
vector has zero norm (zero sum of squares) it returns `0.0` instead of
dividing; consequently a node whose embedding has zero norm fires no
trigger whose threshold is positive. -/
theorem cos_sim_zero_norm_never_fires :
    (∀ a b : List ℚ, sumSq a = 0 ∨ sumSq b = 0 → cos_sim a b = 0)
  ∧ (∀ (ps : PatternStore) (node : Node) (emb : List ℚ),
      node.embedding = some emb → sumSq emb = 0 →
      (∀ trig ∈ node.triggers.getD [], 0 < trig.threshold.getD (85/100)) →
      fireForNode ps node = []) := by
  constructor
  · intro a b h
    rcases h with h | h
    · exact cos_sim_zero_of_left a b h
    · exact cos_sim_zero_of_right a b h
  · intro ps node emb h1 h2 h3
    simp only [fireForNode, h1]
    revert h3
    generalize node.triggers.getD [] = ts
    intro h3
    induction ts with
    | nil => rfl
    | cons trig rest ih =>
      have hθ := h3 trig (List.mem_cons_self _ _)
      have hrest : ∀ t ∈ rest, 0 < t.threshold.getD (85/100) :=
        fun t ht => h3 t (List.mem_cons_of_mem _ ht)
      cases hps : PatternStore.get ps trig.name with
      | none => simp [fireTriggers, hps, ih hrest]
      | some ref =>
        have hsim : cos_sim emb ref = 0 := cos_sim_zero_of_left emb ref h2
        have hc : ¬ cos_sim emb ref ≥ trig.threshold.getD (85/100) := by
          rw [hsim]; exact not_le.mpr hθ
        simp [fireTriggers, hps, hc, ih hrest]

/-- Concrete pattern store for the C10 witness. -/
def psZ : PatternStore := [("alert", [1, 0])]

/-- Concrete zero-norm node for the C10 witness. -/
def nodeZ : Node := ⟨"n2", none, some [0, 0], some [⟨some "alert", some (1/2)⟩]⟩

theorem cos_sim_zero_norm_never_fires_witness :
    cos_sim [0, 0] [1, 0] = 0 ∧ fireForNode psZ nodeZ = [] :=
  ⟨cos_sim_zero_norm_never_fires.1 [0, 0] [1, 0] (Or.inl (by norm_num [sumSq])),
   cos_sim_zero_norm_never_fires.2 psZ nodeZ [0, 0] rfl (by norm_num [sumSq])
     (by norm_num [nodeZ])⟩

/-! ## Connector secret encryption (`activekg/connectors/encryption.py`) -/

/-- A secret-valued string: either a plain (unencrypted) string or a
Fernet token produced under a given key.  Python represents both as
`str`; the tag records which one a value is. -/
inductive SecretVal where
  | raw (s : String)
  | tok (key : Nat) (payload : String)
deriving DecidableEq

/-- Fernet decryption is authenticated: a token decrypts exactly under
the key that produced it, recovering its payload; anything else raises
(`none` here). -/
def fernetDecrypt (key : Nat) : SecretVal → Option String
  | .raw _ => none
  | .tok k s => if k = key then some s else none

/-- Python falsiness of a secret string (`if not ciphertext`). -/
def SecretVal.isEmptyStr : SecretVal → Bool
  | .raw s => s == ""
  | .tok _ _ => false

/-- `SecretEncryption` state: the loaded KEKs (version to Fernet key, in
dict insertion order) and the active version.  The constructor requires
the active version to be among the loaded KEKs; theorems carry that as a
hypothesis. -/
structure Enc where
  keks : List (Nat × Nat)
  active_version : Nat
deriving DecidableEq

/-- Embedding of `SecretEncryption.encrypt_value`: empty plaintext is
returned unchanged, otherwise encrypt with the active KEK. -/
def encrypt_value (E : Enc) (plaintext : String) : SecretVal :=
  if plaintext = "" then .raw plaintext
  else .tok ((E.keks.lookup E.active_version).getD 0) plaintext

/-- Fallback loop of `decrypt_value`: try every loaded KEK in order and
return the first successful decryption; raise when all fail. -/
def tryKeks : List (Nat × Nat) → SecretVal → Except Unit String
  | [], _ => .error ()
  | (_, k) :: rest, c =>
    match fernetDecrypt k c with
    | some s => .ok s
    | none => tryKeks rest c

/-- Embedding of `SecretEncryption.decrypt_value`: empty ciphertext is
returned unchanged; a truthy `key_version` that is loaded is tried
first; on failure (or no usable hint) every loaded KEK is tried in
order; `ValueError` (here `.error ()`) when all fail. -/
def decrypt_value (E : Enc) (c : SecretVal) (key_version : Option Nat) : Except Unit String :=
  if c.isEmptyStr then .ok ""
  else
    match key_version with
    | some v =>
      if v ≠ 0 ∧ (E.keks.lookup v).isSome then
        match fernetDecrypt ((E.keks.lookup v).getD 0) c with
        | some s => .ok s
        | none => tryKeks E.keks c
      else tryKeks E.keks c
    | none => tryKeks E.keks c

theorem lookup_exists_key {l : List (Nat × Nat)} {v k : Nat} (h : l.lookup v = some k) :
    ∃ p ∈ l, p.2 = k := by
  induction l with
  | nil => simp [List.lookup] at h
  | cons p rest ih =>
    rw [List.lookup] at h
    cases hb : (v == p.1) with
    | true => rw [hb] at h; exact ⟨p, List.mem_cons_self _ _, Option.some.inj h⟩
    | false =>
      rw [hb] at h
      obtain ⟨q, hq, hk⟩ := ih h
      exact ⟨q, List.mem_cons_of_mem _ hq, hk⟩

/-- If some loaded KEK holds the key of a token, the fallback loop
recovers its payload. -/
theorem tryKeks_tok {l : List (Nat × Nat)} {k : Nat} (x : String)
    (h : ∃ p ∈ l, p.2 = k) : tryKeks l (.tok k x) = .ok x := by
  induction l with
  | nil => simp at h
  | cons p rest ih =>
    by_cases hk : k = p.2
    · simp [tryKeks, fernetDecrypt, hk]
    · obtain ⟨q, hq, hqk⟩ := h
      rcases List.mem_cons.mp hq with rfl | hq2
      · exact absurd hqk.symm hk
      · simp only [tryKeks, fernetDecrypt, if_neg hk]
        exact ih ⟨q, hq2, hqk⟩

/-- Any successful Fernet decryption of a token yields its payload. -/
theorem fernetDecrypt_tok_eq {key k : Nat} {x s : String}
    (h : fernetDecrypt key (.tok k x) = some s) : s = x := by
  by_cases hk : k = key
  · simpa [fernetDecrypt, hk] using (Option.some.inj (by simpa [fernetDecrypt, hk] using h)).symm
  · simp [fernetDecrypt, hk] at h

/-- C2: `encrypt_value` encrypts non-empty plaintext with the active
KEK, and `decrypt_value` recovers the plaintext of a value encrypted
under any loaded KEK version regardless of the `key_version` hint, since
it falls back to every loaded KEK; in particular
`decrypt_value (encrypt_value x) = x`. -/
theorem encrypt_decrypt_roundtrip (E : Enc) (x : String) (hx : x ≠ "")
    (hwf : (E.keks.lookup E.active_version).isSome) :
    encrypt_value E x = .tok ((E.keks.lookup E.active_version).getD 0) x
  ∧ (∀ v k : Nat, E.keks.lookup v = some k →
      ∀ hint, decrypt_value E (.tok k x) hint = .ok x)
  ∧ (∀ hint, decrypt_value E (encrypt_value E x) hint = .ok x) := by
  have main : ∀ v k : Nat, E.keks.lookup v = some k →
      ∀ hint, decrypt_value E (.tok k x) hint = .ok x := by
    intro v k hlk hint
    have htk : tryKeks E.keks (.tok k x) = .ok x := tryKeks_tok x (lookup_exists_key hlk)
    cases hint with
    | none => simpa [decrypt_value, SecretVal.isEmptyStr] using htk
    | some v0 =>
      by_cases hc : v0 ≠ 0 ∧ (E.keks.lookup v0).isSome
      · simp only [decrypt_value, SecretVal.isEmptyStr, Bool.false_eq_true, if_false, if_pos hc]
        cases hfd : fernetDecrypt ((E.keks.lookup v0).getD 0) (.tok k x) with
        | none => exact htk
        | some s => rw [fernetDecrypt_tok_eq hfd]
      · simp only [decrypt_value, SecretVal.isEmptyStr, Bool.false_eq_true, if_false, if_neg hc]
        exact htk
  refine ⟨by simp [encrypt_value, hx], main, ?_⟩
  intro hint
  obtain ⟨k, hk⟩ := Option.isSome_iff_exists.mp hwf
  have he : encrypt_value E x = .tok k x := by simp [encrypt_value, hx, hk]
  rw [he]
  exact main E.active_version k hk hint

/-- Concrete two-KEK state for the C2 witness: versions 1 and 2 loaded,
version 1 active. -/
def encW : Enc := ⟨[(1, 10), (2, 20)], 1⟩

theorem encrypt_decrypt_roundtrip_witness :
    decrypt_value encW (encrypt_value encW "s") (some 2) = .ok "s"
  ∧ decrypt_value encW (SecretVal.tok 20 "s") (some 1) = .ok "s" :=
  ⟨(encrypt_decrypt_roundtrip encW "s" (by decide) (by decide)).2.2 (some 2),
   (encrypt_decrypt_roundtrip encW "s" (by decide) (by decide)).2.1 2 20 (by decide) (some 1)⟩

/-- The `SECRET_FIELDS` constant of `encryption.py`. -/
def SECRET_FIELDS : List String :=
  ["access_key_id", "secret_access_key", "api_key", "password", "token", "credentials"]

/-- Observable side effects of `decrypt_config` on failure: the
`logger.error` call (whose message interpolates only the field name and
the key-version hint) and the
`connector_decrypt_failures_total.labels(field=...).inc()` counter
increment.  Neither carries the ciphertext. -/
inductive EncEvent where
  | log_decrypt_failed (field : String) (key_version : Option Nat)
  | counter_decrypt_failures (field : String)
deriving DecidableEq

/-- Dict assignment `decrypted[field] = x` for a key already present:
replace the value at the first matching key. -/
def updateField : List (String × SecretVal) → String → SecretVal → List (String × SecretVal)
  | [], _, _ => []
  | (k, v) :: rest, f, nv =>
    if k = f then (k, nv) :: rest else (k, v) :: updateField rest f nv

/-- One iteration of the `for field in secret_fields` loop of
`decrypt_config`: skip absent or falsy fields; on successful decryption
store the plaintext; on failure log, bump the counter and keep the
encrypted value (`pass`). -/
def decryptStep (E : Enc) (key_version : Option Nat)
    (acc : List (String × SecretVal) × List EncEvent) (field : String) :
    List (String × SecretVal) × List EncEvent :=
  match acc.1.lookup field with
  | none => acc
  | some v =>
    if v.isEmptyStr then acc
    else
      match decrypt_value E v key_version with
      | .ok s => (updateField acc.1 field (.raw s), acc.2)
      | .error _ =>
        (acc.1, acc.2 ++ [.log_decrypt_failed field key_version,
                          .counter_decrypt_failures field])

/-- Embedding of `SecretEncryption.decrypt_config`: fold the per-field
loop over the secret fields, starting from a copy of the config and no
emitted events.  The function always returns; exceptions from
`decrypt_value` are caught inside the loop. -/
def decrypt_config (E : Enc) (config : List (String × SecretVal))
    (secret_fields : List String) (key_version : Option Nat) :
    List (String × SecretVal) × List EncEvent :=
  secret_fields.foldl (decryptStep E key_version) (config, [])

theorem updateField_lookup_ne (g : String) (nv : SecretVal) (f : String) (hfg : f ≠ g) :
    ∀ cfg : List (String × SecretVal), (updateField cfg g nv).lookup f = cfg.lookup f := by
  intro cfg
  induction cfg with
  | nil => rfl
  | cons p rest ih =>
    obtain ⟨k, v⟩ := p
    by_cases hk : k = g
    · subst hk
      have hbf : (f == k) = false := by simp [hfg]
      simp [updateField, List.lookup, hbf]
    · cases hbf : (f == k) with
      | true => simp [updateField, if_neg hk, List.lookup, hbf]
      | false => simp [updateField, if_neg hk, List.lookup, hbf, ih]

theorem decryptStep_invariant (E : Enc) (hint : Option Nat) (f : String) (v : SecretVal)
    (hne : v.isEmptyStr = false) (hfail : decrypt_value E v hint = .error ())
    (acc : List (String × SecretVal) × List EncEvent) (g : String)
    (hacc : acc.1.lookup f = some v) :
    (decryptStep E hint acc g).1.lookup f = some v
  ∧ (∀ e ∈ acc.2, e ∈ (decryptStep E hint acc g).2)
  ∧ (f = g →
      EncEvent.log_decrypt_failed f hint ∈ (decryptStep E hint acc g).2
      ∧ EncEvent.counter_decrypt_failures f ∈ (decryptStep E hint acc g).2) := by
  by_cases hfg : f = g
  · subst hfg
    have hstep : decryptStep E hint acc f =
        (acc.1, acc.2 ++ [EncEvent.log_decrypt_failed f hint,
                          EncEvent.counter_decrypt_failures f]) := by
      simp [decryptStep, hacc, hne, hfail]
    rw [hstep]
    exact ⟨hacc, fun e he => by simp [he], fun _ => by simp⟩
  · cases hg : acc.1.lookup g with
    | none =>
      have hstep : decryptStep E hint acc g = acc := by simp [decryptStep, hg]
      rw [hstep]
      exact ⟨hacc, fun e he => he, fun h => absurd h hfg⟩
    | some w =>
      by_cases hw : w.isEmptyStr
      · have hstep : decryptStep E hint acc g = acc := by simp [decryptStep, hg, hw]
        rw [hstep]
        exact ⟨hacc, fun e he => he, fun h => absurd h hfg⟩
      · cases hd : decrypt_value E w hint with
        | ok s =>
          have hstep : decryptStep E hint acc g = (updateField acc.1 g (.raw s), acc.2) := by
            simp [decryptStep, hg, hw, hd]
          rw [hstep]
          refine ⟨?_, fun e he => he, fun h => absurd h hfg⟩
          rw [updateField_lookup_ne g (.raw s) f hfg]
          exact hacc
        | error u =>
          have hstep : decryptStep E hint acc g =
              (acc.1, acc.2 ++ [EncEvent.log_decrypt_failed g hint,
                                EncEvent.counter_decrypt_failures g]) := by
            simp [decryptStep, hg, hw, hd]
          rw [hstep]
          exact ⟨hacc, fun e he => by simp [he], fun h => absurd h hfg⟩

theorem decrypt_config_go (E : Enc) (hint : Option Nat) (f : String) (v : SecretVal)
    (hne : v.isEmptyStr = false) (hfail : decrypt_value E v hint = .error ()) :
    ∀ (fields : List String) (acc : List (String × SecretVal) × List EncEvent),
      acc.1.lookup f = some v →
      (fields.foldl (decryptStep E hint) acc).1.lookup f = some v
      ∧ (∀ e ∈ acc.2, e ∈ (fields.foldl (decryptStep E hint) acc).2)
      ∧ (f ∈ fields →
          EncEvent.log_decrypt_failed f hint ∈ (fields.foldl (decryptStep E hint) acc).2
          ∧ EncEvent.counter_decrypt_failures f ∈
              (fields.foldl (decryptStep E hint) acc).2) := by
  intro fields
  induction fields with
  | nil => exact fun acc hacc => ⟨hacc, fun e he => he, by simp⟩
  | cons g rest ih =>
    intro acc hacc
    obtain ⟨s1, s2, s3⟩ := decryptStep_invariant E hint f v hne hfail acc g hacc
    obtain ⟨h1, h2, h3⟩ := ih (decryptStep E hint acc g) s1
    rw [List.foldl_cons]
    refine ⟨h1, fun e he => h2 e (s2 e he), ?_⟩
    intro hf
    rcases List.mem_cons.mp hf with rfl | hf2
    · obtain ⟨hl, hc⟩ := s3 rfl
      exact ⟨h2 _ hl, h2 _ hc⟩
    · exact h3 hf2

/-- C5 (amended): when decryption of a non-empty secret field fails
under every loaded KEK, `decrypt_config` emits the
`decrypt_failures_total` counter increment labelled with the field and a
log line naming only the field and key-version hint, and returns the
config with the field left encrypted; the exception is swallowed rather
than surfaced as a `ConfigError`. -/
theorem decrypt_config_failure_metrics (E : Enc) (cfg : List (String × SecretVal))
    (f : String) (hint : Option Nat) (v : SecretVal)
    (hmem : f ∈ SECRET_FIELDS) (hv : cfg.lookup f = some v)
    (hne : v.isEmptyStr = false) (hfail : decrypt_value E v hint = .error ()) :
    (decrypt_config E cfg SECRET_FIELDS hint).1.lookup f = some v
  ∧ EncEvent.counter_decrypt_failures f ∈ (decrypt_config E cfg SECRET_FIELDS hint).2
  ∧ EncEvent.log_decrypt_failed f hint ∈ (decrypt_config E cfg SECRET_FIELDS hint).2 := by
  obtain ⟨h1, _, h3⟩ := decrypt_config_go E hint f v hne hfail SECRET_FIELDS (cfg, []) hv
  exact ⟨h1, (h3 hmem).2, (h3 hmem).1⟩

/-- Single-KEK state under which the token below cannot decrypt. -/
def encC5 : Enc := ⟨[(1, 10)], 1⟩

theorem decrypt_config_failure_metrics_witness :
    (decrypt_config encC5 [("password", SecretVal.tok 99 "zz")] SECRET_FIELDS none).1.lookup
        "password" = some (SecretVal.tok 99 "zz")
  ∧ EncEvent.counter_decrypt_failures "password" ∈
      (decrypt_config encC5 [("password", SecretVal.tok 99 "zz")] SECRET_FIELDS none).2 :=
  ⟨(decrypt_config_failure_metrics encC5 [("password", SecretVal.tok 99 "zz")] "password" none
      (SecretVal.tok 99 "zz") (by decide) rfl rfl rfl).1,
   (decrypt_config_failure_metrics encC5 [("password", SecretVal.tok 99 "zz")] "password" none
      (SecretVal.tok 99 "zz") (by decide) rfl rfl rfl).2.1⟩

/-- C5 counterexample: at a concrete config whose `password` field fails
to decrypt under every loaded KEK, `decrypt_config` returns normally
with the field still encrypted and only the log and counter events; no
`ConfigError` (or any error value) reaches the caller, and indeed no
`ConfigError` exists in the codebase. -/
theorem decrypt_config_no_configerror :
    decrypt_value encC5 (SecretVal.tok 99 "zz") none = .error ()
  ∧ decrypt_config encC5 [("password", SecretVal.tok 99 "zz")] SECRET_FIELDS none
      = ([("password", SecretVal.tok 99 "zz")],
         [EncEvent.log_decrypt_failed "password" none,
          EncEvent.counter_decrypt_failures "password"]) :=
  ⟨rfl, rfl⟩

/-! ## Rate limiter (`activekg/api/rate_limiter.py`, `middleware.py`) -/

/-- Observable side effects of the rate limiter: the `logger.error`
call in the exception handlers, and Prometheus counter increments
(`api_rate_limited_total` is the only counter in the module and is
incremented solely on 429 rejections, never in the failure paths). -/
inductive LimEvent where
  | logError
  | counterInc (name : String)
deriving DecidableEq

/-- Whether an event is a Prometheus counter increment. -/
def LimEvent.isCounterInc : LimEvent → Bool
  | .counterInc _ => true
  | _ => false

/-- The `RateLimitInfo` dataclass. -/
structure RateLimitInfo where
  allowed : Bool
  limit : Int
  remaining : Int
  reset_at : Int
  retry_after : Option Int
deriving DecidableEq

/-- Python `custom or default` on optional ints: `None` and `0` are
falsy and fall back to the default. -/
def orDefault (custom : Option Int) (dflt : Int) : Int :=
  match custom with
  | some n => if n = 0 then dflt else n
  | none => dflt

/-- Embedding of `RateLimiter.check_limit`.  `enabled`/`hasRedis` mirror
`self.enabled` and `self._redis`; `rate`/`burst` are the endpoint limits
from `RATE_LIMITS` with the optional custom overrides; `redisCurrent` is
the result of the atomic `INCR`+`EXPIRE` pipeline, `.error` when the
Redis call raises.  The failure branch logs and allows (fail-open); no
counter is incremented anywhere in this function. -/
def check_limit (enabled hasRedis : Bool) (custom_limit custom_burst : Option Int)
    (rate burst : Int) (now : Int) (redisCurrent : Except Unit Int) :
    RateLimitInfo × List LimEvent :=
  if !(enabled && hasRedis) then
    (⟨true, 9999, 9999, now + 60, none⟩, [])
  else
    let rate := orDefault custom_limit rate
    let burst := orDefault custom_burst burst
    match redisCurrent with
    | .ok current =>
      if current > burst then
        (⟨false, burst, 0, now + 1, some 1⟩, [])
      else
        (⟨true, burst, max 0 (burst - current), now + 1, none⟩, [])
    | .error _ =>
      (⟨true, rate, rate, now + 60, none⟩, [.logError])

/-- Embedding of `RateLimiter.check_concurrency`: `limit` is
`CONCURRENCY_LIMITS.get(endpoint)` (falsy `None`/`0` means no cap);
`redisCard` is the sorted-set cardinality after pruning, `.error` when
the Redis calls raise.  The failure branch logs and allows (fail-open);
no counter is incremented. -/
def check_concurrency (enabled hasRedis : Bool) (limit : Option Int)
    (redisCard : Except Unit Int) : Bool × List LimEvent :=
  if !(enabled && hasRedis) then (true, [])
  else
    match limit with
    | none => (true, [])
    | some l =>
      if l = 0 then (true, [])
      else
        match redisCard with
        | .ok current => (decide (current < l), [])
        | .error _ => (true, [.logError])

/-- Outcome of `apply_rate_limit` in `middleware.py`: skipped (rate
limiting disabled, no headers touched), allowed (headers set on the
response), or a 429 `HTTPException` (headers carried by the
exception). -/
inductive ApplyOutcome where
  | noLimit
  | allowed (headers : List (String × String)) (request_id : Option String)
  | rejected429 (headers : List (String × String))
deriving DecidableEq

/-- Whether the outcome is a 429 rejection. -/
def ApplyOutcome.is429 : ApplyOutcome → Bool
  | .rejected429 _ => true
  | _ => false

/-- Header presence by key. -/
def hasHeader (hs : List (String × String)) (k : String) : Bool :=
  hs.any (fun p => p.1 == k)

/-- Whether the outcome carries a header with the given key
(`noLimit` carries none). -/
def ApplyOutcome.headerPresent : ApplyOutcome → String → Bool
  | .noLimit, _ => false
  | .allowed h _, k => hasHeader h k
  | .rejected429 h, k => hasHeader h k

/-- `str(retry_after) if retry_after else "1"`: falsy `None`/`0` become
`"1"`. -/
def fmtRetryAfter (ra : Option Int) : String :=
  match ra with
  | some n => if n = 0 then "1" else toString n
  | none => "1"

/-- Embedding of `apply_rate_limit`: skip when `RATE_LIMIT_ENABLED` is
off; otherwise set the three `X-RateLimit-*` headers, raise 429 with
`Retry-After` when over limit, raise 429 with `Retry-After: 5` when the
concurrency check fails, else return the in-flight request id. -/
def apply_rate_limit (rateLimitEnabled : Bool) (info : RateLimitInfo)
    (check_conc : Bool) (concAllowed : Bool) (request_id : Option String) : ApplyOutcome :=
  if !rateLimitEnabled then .noLimit
  else if !info.allowed then
    .rejected429 [("Retry-After", fmtRetryAfter info.retry_after),
                  ("X-RateLimit-Limit", toString info.limit),
                  ("X-RateLimit-Remaining", toString info.remaining),
                  ("X-RateLimit-Reset", toString info.reset_at)]
  else if check_conc && !concAllowed then
    .rejected429 [("Retry-After", "5"),
                  ("X-RateLimit-Limit", toString info.limit),
                  ("X-RateLimit-Remaining", "0"),
                  ("X-RateLimit-Reset", toString info.reset_at)]
  else
    .allowed [("X-RateLimit-Limit", toString info.limit),
              ("X-RateLimit-Remaining", toString info.remaining),
              ("X-RateLimit-Reset", toString info.reset_at)]
      (if check_conc then request_id else none)

theorem hasHeader_eq_keys (hs : List (String × String)) (k : String) :
    hasHeader hs k = (hs.map Prod.fst).any (fun s => s == k) := by
  induction hs with
  | nil => rfl
  | cons p rest ih =>
    simp only [hasHeader] at ih
    simp [hasHeader, ih]

/-- C6: with rate limiting enabled, every outcome of `apply_rate_limit`
carries the three `X-RateLimit-*` headers (on the response when allowed,
on the 429 exception when rejected), and every over-limit request is
rejected with a 429 carrying a `Retry-After` header. -/
theorem rate_limit_headers_always_present (info : RateLimitInfo) (cc conc : Bool)
    (rid : Option String) :
    (apply_rate_limit true info cc conc rid ≠ .noLimit)
  ∧ (apply_rate_limit true info cc conc rid).headerPresent "X-RateLimit-Limit" = true
  ∧ (apply_rate_limit true info cc conc rid).headerPresent "X-RateLimit-Remaining" = true
  ∧ (apply_rate_limit true info cc conc rid).headerPresent "X-RateLimit-Reset" = true
  ∧ (info.allowed = false →
      (apply_rate_limit true info cc conc rid).is429 = true
      ∧ (apply_rate_limit true info cc conc rid).headerPresent "Retry-After" = true) := by
  have e1 : ("Retry-After" == "X-RateLimit-Limit") = false := by decide
  have e2 : ("Retry-After" == "X-RateLimit-Remaining") = false := by decide
  have e3 : ("Retry-After" == "X-RateLimit-Reset") = false := by decide
  have e4 : ("X-RateLimit-Limit" == "X-RateLimit-Remaining") = false := by decide
  have e5 : ("X-RateLimit-Limit" == "X-RateLimit-Reset") = false := by decide
  have e6 : ("X-RateLimit-Limit" == "Retry-After") = false := by decide
  have e7 : ("X-RateLimit-Remaining" == "X-RateLimit-Reset") = false := by decide
  have e8 : ("X-RateLimit-Remaining" == "Retry-After") = false := by decide
  have e9 : ("X-RateLimit-Reset" == "Retry-After") = false := by decide
  cases ha : info.allowed <;> cases hcc : cc <;> cases hconc : conc <;>
    simp [apply_rate_limit, ha, ApplyOutcome.headerPresent, ApplyOutcome.is429,
      hasHeader, e1, e2, e3, e4, e5, e6, e7, e8, e9]

/-- Concrete over-limit info for the C6 witness. -/
def infoOver : RateLimitInfo := ⟨false, 100, 0, 1700000001, some 1⟩

theorem rate_limit_headers_always_present_witness :
    (apply_rate_limit true infoOver false true none).is429 = true
  ∧ (apply_rate_limit true infoOver false true none).headerPresent "Retry-After" = true
  ∧ (apply_rate_limit true infoOver false true none).headerPresent "X-RateLimit-Limit" = true :=
  ⟨((rate_limit_headers_always_present infoOver false true none).2.2.2.2 rfl).1,
   ((rate_limit_headers_always_present infoOver false true none).2.2.2.2 rfl).2,
   (rate_limit_headers_always_present infoOver false true none).2.1⟩

/-- C7 (amended): when the Redis backing store raises, `check_limit`
and `check_concurrency` permit the request (fail-open, allowed true) and
log the failure; no Prometheus counter is incremented in these paths
(the only counter of the module, `api_rate_limited_total`, counts 429
rejections). -/
theorem rate_limiter_fail_open (rate burst now : Int) (cl cb : Option Int)
    (lv : Int) (hlv : lv ≠ 0) :
    (check_limit true true cl cb rate burst now (.error ())).1.allowed = true
  ∧ (check_limit true true cl cb rate burst now (.error ())).2 = [.logError]
  ∧ (check_limit true true cl cb rate burst now (.error ())).2.any LimEvent.isCounterInc = false
  ∧ (check_concurrency true true (some lv) (.error ())).1 = true
  ∧ (check_concurrency true true (some lv) (.error ())).2 = [.logError]
  ∧ (check_concurrency true true (some lv) (.error ())).2.any LimEvent.isCounterInc
      = false := by
  simp [check_limit, check_concurrency, hlv, LimEvent.isCounterInc]

theorem rate_limiter_fail_open_witness :
    (check_limit true true none none 50 100 0 (.error ())).1.allowed = true
  ∧ (check_concurrency true true (some 3) (.error ())).1 = true :=
  ⟨(rate_limiter_fail_open 50 100 0 none none 3 (by decide)).1,
   (rate_limiter_fail_open 50 100 0 none none 3 (by decide)).2.2.2.1⟩

/-- C7 counterexample: at a concrete Redis failure, the fail-open path
of `check_limit` emits exactly one log event and no counter increment,
contradicting the part of the claim that says a counter is
incremented. -/
theorem rate_limiter_fail_open_no_counter :
    (check_limit true true none none 50 100 0 (.error ())).1.allowed = true
  ∧ (check_limit true true none none 50 100 0 (.error ())).2 = [LimEvent.logError]
  ∧ (check_limit true true none none 50 100 0 (.error ())).2.any LimEvent.isCounterInc
      = false :=
  ⟨rfl, rfl, rfl⟩

/-! ## S3/SNS webhook handler (`activekg/connectors/webhooks.py`) -/

/-- One S3 record inside the SNS `Message`: the fields read by the
handler (`eventName` defaults to the empty string; the nested bucket
name, object key and eTag may be absent). -/
structure S3Record where
  eventName : String
  bucket : Option String
  key : Option String
  eTag : Option String
deriving DecidableEq

/-- The parsed SNS body: `Type`, `SubscribeURL`, `MessageId`,
`TopicArn` (defaulting to the empty string) and the inner `Message`
(`none` models a `Message` that fails to parse as an S3 event;
`some records` the parsed `Records` list, defaulting to `[]`). -/
structure SnsBody where
  msg_type : Option String
  subscribeURL : Option String
  messageId : Option String
  topicArn : String
  message : Option (List S3Record)
deriving DecidableEq

/-- Outcome of `verify_sns_message`: returned `True`, returned `False`,
or raised. -/
inductive SigCheck where
  | valid
  | invalid
  | errored
deriving DecidableEq

/-- An incoming webhook request: the `content-length` header, the
`x-amz-sns-message-signature-version` header, the parsed JSON body
(`none` models a body that is not valid JSON) and the signature
verification outcome. -/
structure SnsRequest where
  content_length : Option Nat
  sig_version : Option String
  body : Option SnsBody
  sig_check : SigCheck
deriving DecidableEq

/-- Webhook environment: `WEBHOOK_VERIFY_SNS` and the parsed
`WEBHOOK_TOPIC_ALLOWLIST` JSON object (`none` models a value that fails
to parse; an unset variable defaults to `"{}"`, i.e. `some []`). -/
structure WebhookEnv where
  verify_sns : Bool
  topic_allowlist : Option (List (String × List String))
deriving DecidableEq

/-- Embedding of `get_topic_allowlist`:
`allowlist.get(tenant_id, allowlist.get("default", []))`, with `[]` on
parse failure. -/
def get_topic_allowlist (env : WebhookEnv) (tenant_id : String) : List String :=
  match env.topic_allowlist with
  | none => []
  | some m =>
    match m.lookup tenant_id with
    | some pats => pats
    | none => (m.lookup "default").getD []

/-- Python `str.split(sep)` over characters, with the remaining length
as structural fuel (so that it evaluates in the kernel): scan left to
right, cut at each occurrence of the separator. -/
def pySplit (sep : List Char) : Nat → List Char → List (List Char)
  | _, [] => [[]]
  | 0, s => [s]
  | fuel + 1, c :: rest =>
    if sep.isPrefixOf (c :: rest) then
      [] :: pySplit sep fuel ((c :: rest).drop sep.length)
    else
      match pySplit sep fuel rest with
      | [] => [[c]]
      | h :: t => (c :: h) :: t

/-- Python `s.split(sep)` on strings (the handler only splits on the
non-empty separators `":"` and `":activekg-s3-"`). -/
def strSplitOn (s sep : String) : List String :=
  (pySplit sep.data s.data.length s.data).map String.mk

/-- Python `s.startswith(p)`. -/
def startsWithStr (s p : String) : Bool :=
  p.data.isPrefixOf s.data

/-- One pattern test of `validate_topic_arn`: exact match, or
segment-wise match over the colon-split ARN where a `*` pattern segment
matches anything (lengths must agree). -/
def patternMatchesArn (pattern topic_arn : String) : Bool :=
  pattern == topic_arn ||
  (let pp := strSplitOn pattern ":"
   let ap := strSplitOn topic_arn ":"
   pp.length == ap.length && (pp.zip ap).all fun q => q.1 == "*" || q.1 == q.2)

/-- Embedding of `validate_topic_arn`: an empty allowlist allows
everything (permissive mode); otherwise some pattern must match. -/
def validate_topic_arn (env : WebhookEnv) (topic_arn tenant_id : String) : Bool :=
  let allowlist := get_topic_allowlist env tenant_id
  if allowlist.isEmpty then true
  else allowlist.any (fun p => patternMatchesArn p topic_arn)

/-- Embedding of the tenant extraction in `handle_s3_webhook`:
`topic_arn.split(":activekg-s3-")[-1]` when the marker occurs, else
`"default"`.  `splitOn` yields at least two parts exactly when the
marker occurs in the string. -/
def extractTenant (topic_arn : String) : String :=
  let parts := strSplitOn topic_arn ":activekg-s3-"
  if parts.length ≥ 2 then parts.getLast?.getD "default" else "default"

/-- The Redis dedup keys `webhook:sns:dedup:...`: message id mapped to
its expiry time (SETNX with EX). -/
abbrev DedupStore := List (String × Nat)

/-- Whether the dedup key for a message id is live at `now`. -/
def dedupActive (st : DedupStore) (mid : String) (now : Nat) : Bool :=
  match st.lookup mid with
  | some expiry => decide (now < expiry)
  | none => false

/-- Embedding of `check_replay`: `SET key 1 EX ttl NX` returns the new
store and `true` when the key was absent (message is new), `false` on a
live key (replay). -/
def check_replay (st : DedupStore) (mid : String) (now ttl : Nat) : Bool × DedupStore :=
  if dedupActive st mid now then (false, st)
  else (true, (mid, now + ttl) :: st)

/-- Hex digit value, as `urllib` percent-decoding uses. -/
def hexDigit (c : Char) : Option Nat :=
  if c.isDigit then some (c.toNat - 48)
  else if 'a' ≤ c ∧ c ≤ 'f' then some (c.toNat - 87)
  else if 'A' ≤ c ∧ c ≤ 'F' then some (c.toNat - 55)
  else none

/-- Embedding of `urllib.parse.unquote_plus` over the characters of the
key: `+` becomes a space and `%xx` decodes to the character with that
code (ASCII model of the UTF-8 decoding); malformed escapes pass
through. -/
def unquotePlusChars : List Char → List Char
  | [] => []
  | '+' :: rest => ' ' :: unquotePlusChars rest
  | '%' :: a :: b :: rest =>
    match hexDigit a, hexDigit b with
    | some x, some y => Char.ofNat (16 * x + y) :: unquotePlusChars rest
    | _, _ => '%' :: unquotePlusChars (a :: b :: rest)
  | c :: rest => c :: unquotePlusChars rest

/-- `unquote_plus` on strings. -/
def unquote_plus (s : String) : String :=
  String.mk (unquotePlusChars s.data)

/-- The `ChangeItem` enqueued by `enqueue_s3_event`. -/
structure ChangeItem where
  uri : String
  operation : String
  etag : Option String
  modified_at : Nat
  tenant_id : String
deriving DecidableEq

/-- Embedding of `enqueue_s3_event`: `ObjectCreated*` upserts,
`ObjectRemoved*` deletes, anything else logs and upserts. -/
def enqueue_s3_event (tenant_id bucket key eventName : String) (etag : Option String)
    (now : Nat) : ChangeItem :=
  let operation :=
    if startsWithStr eventName "ObjectCreated" then "upsert"
    else if startsWithStr eventName "ObjectRemoved" then "deleted"
    else "upsert"
  ⟨"s3://" ++ bucket ++ "/" ++ key, operation, etag, now, tenant_id⟩

/-- Step 10 of the handler for one record: URL-decode a truthy key,
then enqueue only when both bucket and key are truthy. -/
def recordToItem (tenant_id : String) (now : Nat) (r : S3Record) : Option ChangeItem :=
  match r.bucket, r.key with
  | some bucket, some key =>
    let key2 := if key ≠ "" then unquote_plus key else key
    if bucket ≠ "" ∧ key2 ≠ "" then
      some (enqueue_s3_event tenant_id bucket key2 r.eventName r.eTag now)
    else none
  | _, _ => none

/-- A `JSONResponse` body returned by the handler. -/
inductive RespBody where
  | subscriptionPending (url : String)
  | duplicate
  | queued (count : Nat) (tenant_id : String)
deriving DecidableEq

/-- Handler response: a 200 `JSONResponse` or an `HTTPException`. -/
inductive WebhookResponse where
  | jsonOk (body : RespBody)
  | httpError (status : Nat)
deriving DecidableEq

/-- HTTP status of a response (`JSONResponse` defaults to 200). -/
def WebhookResponse.status : WebhookResponse → Nat
  | .jsonOk _ => 200
  | .httpError s => s

/-- Result of one handler invocation: the response, the `ChangeItem`s
enqueued (via background tasks), and the dedup store afterwards. -/
structure HandlerResult where
  response : WebhookResponse
  enqueued : List ChangeItem
  dedup : DedupStore
deriving DecidableEq

/-- Embedding of `handle_s3_webhook`: size limit on the
`content-length` header (1 MB), JSON parse, message-type dispatch,
signature version and verification, replay dedup (SETNX, 5-minute TTL,
missing or empty `MessageId` also answered as a duplicate), S3 event
parse, tenant extraction, topic allowlist, then one enqueue per record
with a truthy bucket and key. -/
def handle_s3_webhook (env : WebhookEnv) (req : SnsRequest) (st : DedupStore)
    (now : Nat) : HandlerResult :=
  if (match req.content_length with | some n => decide (n > 1024 * 1024) | none => false) then
    ⟨.httpError 413, [], st⟩
  else
    match req.body with
    | none => ⟨.httpError 400, [], st⟩
    | some body =>
      if body.msg_type = some "SubscriptionConfirmation" then
        match body.subscribeURL with
        | some url => ⟨.jsonOk (.subscriptionPending url), [], st⟩
        | none => ⟨.httpError 400, [], st⟩
      else if body.msg_type = some "Notification" then
        if req.sig_version.getD "1" ≠ "1" then ⟨.httpError 400, [], st⟩
        else if env.verify_sns ∧ req.sig_check = .invalid then ⟨.httpError 403, [], st⟩
        else if env.verify_sns ∧ req.sig_check = .errored then ⟨.httpError 503, [], st⟩
        else
          match body.messageId with
          | none => ⟨.jsonOk .duplicate, [], st⟩
          | some mid =>
            if mid = "" then ⟨.jsonOk .duplicate, [], st⟩
            else
              match check_replay st mid now 300 with
              | (false, st2) => ⟨.jsonOk .duplicate, [], st2⟩
              | (true, st2) =>
                match body.message with
                | none => ⟨.httpError 400, [], st2⟩
                | some records =>
                  let tenant_id := extractTenant body.topicArn
                  if !(validate_topic_arn env body.topicArn tenant_id) then
                    ⟨.httpError 403, [], st2⟩
                  else
                    let items := records.filterMap (recordToItem tenant_id now)
                    ⟨.jsonOk (.queued items.length tenant_id), items, st2⟩
      else ⟨.httpError 400, [], st⟩

/-- A Notification request that passes the size, JSON, message-type,
signature-version and signature checks, and therefore reaches the
replay-protection step. -/
def reachesReplay (env : WebhookEnv) (req : SnsRequest) (body : SnsBody) : Prop :=
  (match req.content_length with
   | some n => decide (n > 1024 * 1024)
   | none => false) = false
  ∧ req.body = some body
  ∧ body.msg_type = some "Notification"
  ∧ req.sig_version.getD "1" = "1"
  ∧ (env.verify_sns = true → req.sig_check = .valid)

instance (env : WebhookEnv) (req : SnsRequest) (body : SnsBody) :
    Decidable (reachesReplay env req body) := by
  unfold reachesReplay; infer_instance

/-- Behaviour of the handler beyond the replay check: a live dedup key
answers duplicate without touching the store; otherwise the key is set
for 300 seconds and the request proceeds to event parsing, allowlist
validation and enqueueing. -/
theorem handle_notification_replay (env : WebhookEnv) (req : SnsRequest) (body : SnsBody)
    (st : DedupStore) (now : Nat) (mid : String)
    (h : reachesReplay env req body) (hmid : body.messageId = some mid) (hne : mid ≠ "") :
    handle_s3_webhook env req st now =
      if dedupActive st mid now then ⟨.jsonOk .duplicate, [], st⟩
      else
        match body.message with
        | none => ⟨.httpError 400, [], (mid, now + 300) :: st⟩
        | some records =>
          if !(validate_topic_arn env body.topicArn (extractTenant body.topicArn)) then
            ⟨.httpError 403, [], (mid, now + 300) :: st⟩
          else
            ⟨.jsonOk (.queued
                (records.filterMap (recordToItem (extractTenant body.topicArn) now)).length
                (extractTenant body.topicArn)),
             records.filterMap (recordToItem (extractTenant body.topicArn) now),
             (mid, now + 300) :: st⟩ := by
  obtain ⟨hcl, hb, hty, hsv, hsc⟩ := h
  have hd1 : ("Notification" : String) ≠ "SubscriptionConfirmation" := by decide
  have hnotinv : ¬ (env.verify_sns = true ∧ req.sig_check = SigCheck.invalid) := by
    rintro ⟨hv, hs⟩
    exact absurd ((hsc hv).symm.trans hs) (by decide)
  have hnoterr : ¬ (env.verify_sns = true ∧ req.sig_check = SigCheck.errored) := by
    rintro ⟨hv, hs⟩
    exact absurd ((hsc hv).symm.trans hs) (by decide)
  simp only [handle_s3_webhook, hcl, hb, hty, hsv, hmid]
  simp only [Bool.false_eq_true, if_false, Option.some.injEq, hd1, ite_false, ite_true,
    ne_eq, not_true_eq_false, hnotinv, hnoterr, hne, if_true]
  by_cases hd : dedupActive st mid now
  · simp [check_replay, hd, hne]
  · simp [check_replay, hd, hne]

/-- C3: a webhook Notification delivered twice with the same MessageId
within the 300-second dedup TTL: the first delivery sets the dedup key
(SETNX) and, when the event parses and the topic is allowed, enqueues
one record per truthy bucket and key with a 200 response; the second
delivery within the TTL gets HTTP 200 with body `duplicate`, enqueues
nothing and leaves the store unchanged. -/
theorem webhook_replay_dedup (env : WebhookEnv) (r1 r2 : SnsRequest) (b1 b2 : SnsBody)
    (st : DedupStore) (t1 t2 : Nat) (mid : String)
    (hr1 : reachesReplay env r1 b1) (hmid1 : b1.messageId = some mid) (hne : mid ≠ "")
    (hfresh : dedupActive st mid t1 = false)
    (hr2 : reachesReplay env r2 b2) (hmid2 : b2.messageId = some mid)
    (ht2 : t2 < t1 + 300) :
    dedupActive (handle_s3_webhook env r1 st t1).dedup mid t2 = true
  ∧ (∀ records, b1.message = some records →
      validate_topic_arn env b1.topicArn (extractTenant b1.topicArn) = true →
      (handle_s3_webhook env r1 st t1).enqueued =
          records.filterMap (recordToItem (extractTenant b1.topicArn) t1)
      ∧ (handle_s3_webhook env r1 st t1).response.status = 200)
  ∧ handle_s3_webhook env r2 (handle_s3_webhook env r1 st t1).dedup t2 =
      ⟨.jsonOk .duplicate, [], (handle_s3_webhook env r1 st t1).dedup⟩
  ∧ (handle_s3_webhook env r2 (handle_s3_webhook env r1 st t1).dedup t2).response.status
      = 200 := by
  have h1 := handle_notification_replay env r1 b1 st t1 mid hr1 hmid1 hne
  have hdedup : (handle_s3_webhook env r1 st t1).dedup = (mid, t1 + 300) :: st := by
    rw [h1]
    simp only [hfresh, Bool.false_eq_true, if_false]
    cases hm : b1.message with
    | none => simp
    | some records =>
      by_cases hv : validate_topic_arn env b1.topicArn (extractTenant b1.topicArn) <;>
        simp [hv]
  have hact : dedupActive ((mid, t1 + 300) :: st) mid t2 = true := by
    simp [dedupActive, List.lookup, ht2]
  have hdup2 : handle_s3_webhook env r2 (handle_s3_webhook env r1 st t1).dedup t2 =
      ⟨.jsonOk .duplicate, [], (handle_s3_webhook env r1 st t1).dedup⟩ := by
    have h2 := handle_notification_replay env r2 b2 ((handle_s3_webhook env r1 st t1).dedup)
      t2 mid hr2 hmid2 hne
    rw [h2, hdedup, if_pos hact]
  refine ⟨by rw [hdedup]; exact hact, ?_, hdup2, by rw [hdup2]; rfl⟩
  intro records hm hv
  rw [h1]
  simp [hfresh, hm, hv, WebhookResponse.status]

/-- Permissive environment for witnesses: signature verification off,
allowlist env unset (`"{}"` parses to the empty map). -/
def envPermissive : WebhookEnv := ⟨false, some []⟩

/-- Concrete Notification body for the C3 witness: one
`ObjectCreated:Put` record for `s3://my-bucket/doc.pdf`. -/
def bodyC3 : SnsBody :=
  ⟨some "Notification", none, some "msg-1", "arn:aws:sns:us-east-1:123:activekg-s3-t1",
   some [⟨"ObjectCreated:Put", some "my-bucket", some "doc.pdf", some "etag1"⟩]⟩

/-- Concrete request carrying `bodyC3`. -/
def reqC3 : SnsRequest := ⟨some 500, some "1", some bodyC3, .valid⟩

theorem webhook_replay_dedup_witness :
    dedupActive (handle_s3_webhook envPermissive reqC3 [] 10).dedup "msg-1" 100 = true
  ∧ handle_s3_webhook envPermissive reqC3 (handle_s3_webhook envPermissive reqC3 [] 10).dedup
      100 = ⟨.jsonOk .duplicate, [], (handle_s3_webhook envPermissive reqC3 [] 10).dedup⟩ :=
  ⟨(webhook_replay_dedup envPermissive reqC3 reqC3 bodyC3 bodyC3 [] 10 100 "msg-1"
      (by decide) rfl (by decide) (by decide) (by decide) rfl (by decide)).1,
   (webhook_replay_dedup envPermissive reqC3 reqC3 bodyC3 bodyC3 [] 10 100 "msg-1"
      (by decide) rfl (by decide) (by decide) (by decide) rfl (by decide)).2.2.1⟩

/-- C4 (amended): a Notification whose extracted tenant has a non-empty
allowlist none of whose patterns matches the TopicArn (exactly or
segment-wise with `*` wildcards) is rejected with HTTP 403 and enqueues
nothing. -/
theorem webhook_topic_reject (env : WebhookEnv) (req : SnsRequest) (body : SnsBody)
    (st : DedupStore) (now : Nat) (mid : String) (records : List S3Record)
    (hr : reachesReplay env req body) (hmid : body.messageId = some mid) (hne : mid ≠ "")
    (hfresh : dedupActive st mid now = false)
    (hm : body.message = some records)
    (hnonempty : (get_topic_allowlist env (extractTenant body.topicArn)).isEmpty = false)
    (hnomatch : (get_topic_allowlist env (extractTenant body.topicArn)).any
        (fun p => patternMatchesArn p body.topicArn) = false) :
    (handle_s3_webhook env req st now).response = .httpError 403
  ∧ (handle_s3_webhook env req st now).enqueued = [] := by
  have hv : validate_topic_arn env body.topicArn (extractTenant body.topicArn) = false := by
    simp only [validate_topic_arn]
    rw [if_neg]
    · exact hnomatch
    · simp [hnonempty]
  have h1 := handle_notification_replay env req body st now mid hr hmid hne
  rw [h1]
  simp [hfresh, hm, hv]

/-- Tenant `t1` allowlist that does not cover the ARN used in the C4
witness. -/
def envStrict : WebhookEnv :=
  ⟨false, some [("t1", ["arn:aws:sns:us-east-1:999:other-topic", "arn:*:foo"])]⟩

/-- Concrete Notification for the C4 witness, extracted tenant `t1`. -/
def bodyC4 : SnsBody :=
  ⟨some "Notification", none, some "msg-4", "arn:aws:sns:us-east-1:123:activekg-s3-t1",
   some [⟨"ObjectCreated:Put", some "b", some "k", none⟩]⟩

/-- Concrete request carrying `bodyC4`. -/
def reqC4 : SnsRequest := ⟨some 500, some "1", some bodyC4, .valid⟩

theorem webhook_topic_reject_witness :
    (handle_s3_webhook envStrict reqC4 [] 0).response = .httpError 403
  ∧ (handle_s3_webhook envStrict reqC4 [] 0).enqueued = [] :=
  webhook_topic_reject envStrict reqC4 bodyC4 [] 0 "msg-4"
    [⟨"ObjectCreated:Put", some "b", some "k", none⟩]
    (by decide) rfl (by decide) (by decide) rfl (by decide) (by decide)

/-- C4 counterexample: a tenant with an empty allowlist (permissive
mode).  The TopicArn matches no pattern of the (empty) allowlist, yet
the handler accepts the request with 200 and enqueues its record
instead of rejecting with 403. -/
theorem webhook_topic_empty_allows :
    (get_topic_allowlist envPermissive (extractTenant bodyC3.topicArn)).any
        (fun p => patternMatchesArn p bodyC3.topicArn) = false
  ∧ (handle_s3_webhook envPermissive reqC3 [] 0).response
      = .jsonOk (.queued 1 "t1")
  ∧ (handle_s3_webhook envPermissive reqC3 [] 0).response ≠ .httpError 403
  ∧ (handle_s3_webhook envPermissive reqC3 [] 0).enqueued ≠ [] := by
  decide

/-- C8: the webhook size gate reads the `content-length` header against
1 MB: a request declaring exactly `1024 * 1024` bytes is never answered
413 (it proceeds to parsing), and a request declaring one byte more is
rejected with HTTP 413, enqueueing nothing and leaving the dedup store
untouched. -/
theorem webhook_size_limit (env : WebhookEnv) (req : SnsRequest) (st : DedupStore)
    (now : Nat) :
    (req.content_length = some (1024 * 1024) →
      (handle_s3_webhook env req st now).response ≠ .httpError 413)
  ∧ (req.content_length = some (1024 * 1024 + 1) →
      handle_s3_webhook env req st now = ⟨.httpError 413, [], st⟩) := by
  constructor
  · intro h
    have hc : (match req.content_length with
        | some n => decide (n > 1024 * 1024)
        | none => false) = false := by rw [h]; decide
    simp only [handle_s3_webhook, hc, Bool.false_eq_true, if_false]
    intro hco
    repeat' split at hco
    all_goals simp at hco
  · intro h
    have hc : (match req.content_length with
        | some n => decide (n > 1024 * 1024)
        | none => false) = true := by rw [h]; decide
    simp [handle_s3_webhook, hc]

/-- Request declaring a body of exactly 1 MB. -/
def reqAtLimit : SnsRequest := ⟨some (1024 * 1024), some "1", some bodyC3, .valid⟩

/-- Request declaring a body of 1 MB plus one byte. -/
def reqOverLimit : SnsRequest := ⟨some (1024 * 1024 + 1), some "1", some bodyC3, .valid⟩

theorem webhook_size_limit_witness :
    (handle_s3_webhook envPermissive reqAtLimit [] 0).response ≠ .httpError 413
  ∧ handle_s3_webhook envPermissive reqOverLimit [] 0 = ⟨.httpError 413, [], []⟩ :=
  ⟨(webhook_size_limit envPermissive reqAtLimit [] 0).1 rfl,
   (webhook_size_limit envPermissive reqOverLimit [] 0).2 rfl⟩

/-- C9: when the allowlist map has no entry for the tenant and no
`default` entry — and likewise when `WEBHOOK_TOPIC_ALLOWLIST` is unset
(the default `"{}"` parses to the empty map) or fails to parse —
`get_topic_allowlist` returns the empty list and `validate_topic_arn`
accepts every TopicArn (permissive mode). -/
theorem topic_allowlist_default_permissive (v : Bool) (m : List (String × List String))
    (tenant arn : String) (hm : m.lookup tenant = none) (hd : m.lookup "default" = none) :
    get_topic_allowlist ⟨v, some m⟩ tenant = []
  ∧ validate_topic_arn ⟨v, some m⟩ arn tenant = true
  ∧ get_topic_allowlist ⟨v, none⟩ tenant = []
  ∧ validate_topic_arn ⟨v, none⟩ arn tenant = true := by
  have h1 : get_topic_allowlist ⟨v, some m⟩ tenant = [] := by
    simp [get_topic_allowlist, hm, hd]
  have h2 : get_topic_allowlist ⟨v, none⟩ tenant = [] := rfl
  refine ⟨h1, ?_, h2, ?_⟩
  · simp [validate_topic_arn, h1]
  · simp [validate_topic_arn, h2]

theorem topic_allowlist_default_permissive_witness :
    validate_topic_arn ⟨true, some [("other", ["arn:x"])]⟩
      "arn:aws:sns:us-east-1:1:anything" "t9" = true :=
  (topic_allowlist_default_permissive true [("other", ["arn:x"])] "t9"
    "arn:aws:sns:us-east-1:1:anything" (by decide) (by decide)).2.1
